import Mathlib

/-!
Shallow embedding of the in-memory FUSE filesystem `cmd/memfs/main.go`.

The Go program keeps a mutable tree of directory, file and symlink nodes
behind one global `sync.RWMutex`; every operation runs while holding the
lock, so each operation is an atomic state transition and is embedded here
as a pure function.  Go maps become association lists with Go map
semantics (`mapLookup` / `mapInsert` / `mapDelete`); `time.Now()` becomes
an explicit `now : Time` argument; the package-global `lastInode`
counter becomes an explicit `Nat` threaded through the node constructors;
the nil zero value of the Go `Node` interface becomes the constructor
`Node.nilNode`; a Go slice-bounds panic (a process fault) is `Option.none`;
a `log.Fatal` call (process termination) is `SetattrResult.fatal`.

Error values are `bazil.org/fuse` errnos; the type lists the values the
spec's error taxonomy distinguishes, while the program itself only ever
produces `ENOENT` and `EEXIST`.
-/

namespace Memfs

/-- Errno values of the `bazil.org/fuse` error space relevant here.
`cmd/memfs/main.go` only ever returns `ENOENT` (`fuse.ENOENT`) and
`EEXIST` (`fuse.EEXIST`); the remaining values exist in the errno space
and give the spec's other error kinds a denotation
(NotEmpty = `ENOTEMPTY`, InvalidTarget/InvalidRange = `EINVAL`,
UnsupportedAttribute = `ENOTSUP`). -/
inductive Errno where
  | ENOENT
  | EEXIST
  | ENOTEMPTY
  | EINVAL
  | ENOTSUP
  deriving DecidableEq, Repr

/-- Abstract clock value standing for a `time.Time`. -/
abbrev Time := Nat

/-- The fields of `type attr fuse.Attr` that memfs reads or writes:
`Inode`, `Mode`, `Ctime`, `Mtime`.  (`Size` is not stored: `File.Attr`
recomputes it from the buffer length.) -/
structure Attr where
  inode : Nat
  mode : Nat
  ctime : Time
  mtime : Time
  deriving DecidableEq, Repr

/-- Go constant `os.ModeDir` (bit 31 of a Go `os.FileMode`). -/
def modeDir : Nat := 2 ^ 31

/-- Go constant `os.ModeSymlink` (bit 27 of a Go `os.FileMode`). -/
def modeSymlink : Nat := 2 ^ 27

/-- A tree node: the Go `Node` interface over `*Dir`, `*File`,
`*Symlink`, together with `nilNode` for the nil interface value (the zero
value a Go map read yields for an absent key, and a storable map value). -/
inductive Node where
  | dir (a : Attr) (children : List (String × Node))
  | file (a : Attr) (content : List Nat)
  | symlink (a : Attr) (target : String)
  | nilNode

/-- View of a `*Dir`: its `attr` and its `children` map. -/
structure Dir where
  attr : Attr
  children : List (String × Node)

/-- View of a `*File`: its `attr` and its `content` byte buffer. -/
structure File where
  attr : Attr
  content : List Nat
  deriving DecidableEq, Repr

/-- View of a `*Symlink`: its `attr` and its immutable `target`. -/
structure Symlink where
  attr : Attr
  target : String
  deriving DecidableEq, Repr

def Dir.toNode (d : Dir) : Node := Node.dir d.attr d.children

def File.toNode (f : File) : Node := Node.file f.attr f.content

def Symlink.toNode (l : Symlink) : Node := Node.symlink l.attr l.target

/-- Go `children[k]` two-value read: `some v` when the key is present. -/
def mapLookup (m : List (String × Node)) (k : String) : Option Node :=
  match m with
  | [] => none
  | (k2, v) :: rest => if k2 = k then some v else mapLookup rest k

/-- Go `children[k] = v`: replace the binding in place or add one. -/
def mapInsert (m : List (String × Node)) (k : String) (v : Node) :
    List (String × Node) :=
  match m with
  | [] => [(k, v)]
  | (k2, w) :: rest =>
      if k2 = k then (k, v) :: rest else (k2, w) :: mapInsert rest k v

/-- Go `delete(children, k)`. -/
def mapDelete (m : List (String × Node)) (k : String) :
    List (String × Node) :=
  match m with
  | [] => []
  | (k2, w) :: rest =>
      if k2 = k then mapDelete rest k else (k2, w) :: mapDelete rest k

/-- Go one-value map read `children[k]`: the nil interface value when
the key is absent. -/
def mapGet (m : List (String × Node)) (k : String) : Node :=
  (mapLookup m k).getD Node.nilNode

/-- The inode a node's attr carries (0 for the nil node); used to tell
concrete nodes apart without recursing into subtrees. -/
def Node.inodeOf : Node → Nat
  | .dir a _ => a.inode
  | .file a _ => a.inode
  | .symlink a _ => a.inode
  | .nilNode => 0

/-- Constructor `newNode(mode)`: increments the package-global `lastInode` counter
and stamps a fresh attr with it; `Ctime` and `Mtime` are the creation
instant. -/
def newNode (mode : Nat) (now : Time) (lastInode : Nat) : Attr × Nat :=
  (⟨lastInode + 1, mode, now, now⟩, lastInode + 1)

/-- Constructor `newDir(mode)`: fresh attr with `os.ModeDir | mode`, empty children. -/
def newDir (mode : Nat) (now : Time) (lastInode : Nat) : Dir × Nat :=
  let p := newNode (modeDir ||| mode) now lastInode
  (⟨p.1, []⟩, p.2)

/-- Constructor `newFile(mode)`: fresh attr, nil content buffer. -/
def newFile (mode : Nat) (now : Time) (lastInode : Nat) : File × Nat :=
  let p := newNode mode now lastInode
  (⟨p.1, []⟩, p.2)

/-- Constructor `newSymlink(target)`: fresh attr with mode hard-coded to
`os.ModeSymlink | 0444`; the target string is stored unchanged. -/
def newSymlink (target : String) (now : Time) (lastInode : Nat) :
    Symlink × Nat :=
  let p := newNode (modeSymlink ||| 0o444) now lastInode
  (⟨p.1, target⟩, p.2)

/-- The package initializer `root = newDir(0777)` run with
`lastInode = 0`: the root directory, which therefore has inode 1. -/
def root : Dir := (newDir 0o777 0 0).1

/-- Method `(*Dir).Lookup`: presence test on the children map; `fuse.ENOENT`
when absent.  A stored nil entry is present, so it is returned as-is. -/
def Dir.lookupOp (d : Dir) (name : String) : Except Errno Node :=
  match mapLookup d.children name with
  | some child => .ok child
  | none => .error .ENOENT

/-- Method `(*Dir).Mkdir`: `fuse.EEXIST` if the name is taken, else insert a
fresh empty directory and touch this directory's mtime. -/
def Dir.mkdirOp (d : Dir) (name : String) (mode : Nat) (now : Time)
    (lastInode : Nat) : Except Errno (Dir × Dir × Nat) :=
  if (mapLookup d.children name).isSome then
    .error .EEXIST
  else
    let p := newDir mode now lastInode
    .ok (⟨{ d.attr with mtime := now },
          mapInsert d.children name p.1.toNode⟩, p.1, p.2)

/-- Method `(*Dir).Create`: inserts a fresh empty file under the name and
touches mtime.  The method has no duplicate-name test and its error
result is always nil, so the embedding always returns `.ok`. -/
def Dir.createOp (d : Dir) (name : String) (mode : Nat) (now : Time)
    (lastInode : Nat) : Except Errno (Dir × File × Nat) :=
  let p := newFile mode now lastInode
  .ok (⟨{ d.attr with mtime := now },
        mapInsert d.children name p.1.toNode⟩, p.1, p.2)

/-- Method `(*Dir).Link`: if the old node type-asserts to `*File` the entry is
inserted and mtime touched, otherwise nothing happens; either way the
old node and a nil error are returned. -/
def Dir.linkOp (d : Dir) (newName : String) (old : Node) (now : Time) :
    Except Errno (Dir × Node) :=
  match old with
  | .file a c =>
      .ok (⟨{ d.attr with mtime := now },
            mapInsert d.children newName (Node.file a c)⟩, Node.file a c)
  | _ => .ok (d, old)

/-- Method `(*Dir).Symlink`: builds `newSymlink(req.Target)` (its mode is the
hard-coded `os.ModeSymlink | 0444`), stores it under the name with a
plain map write (overwriting any existing entry), touches mtime, and
returns a nil error. -/
def Dir.symlinkOp (d : Dir) (newName : String) (target : String)
    (now : Time) (lastInode : Nat) : Except Errno (Dir × Symlink × Nat) :=
  let p := newSymlink target now lastInode
  .ok (⟨{ d.attr with mtime := now },
        mapInsert d.children newName p.1.toNode⟩, p.1, p.2)

/-- Method `(*Dir).Remove`: if the (one-value) map read type-asserts to a
`*Dir` with at least one child, return `fuse.EEXIST`; otherwise delete
the key and touch mtime. -/
def Dir.removeOp (d : Dir) (name : String) (now : Time) :
    Except Errno Dir :=
  match mapGet d.children name with
  | .dir _ ch =>
      if 0 < ch.length then
        .error .EEXIST
      else
        .ok ⟨{ d.attr with mtime := now }, mapDelete d.children name⟩
  | _ => .ok ⟨{ d.attr with mtime := now }, mapDelete d.children name⟩

/-- Method `(*Dir).Rename`: if the destination type-asserts to `*Dir`, read the
old entry with a one-value map read (nil when absent), delete the old
key, touch both mtimes, and store the value under the new name in the
destination; otherwise `fuse.ENOENT`.  The result is the updated source
directory and the updated destination node (the two are distinct
objects in every cross-directory rename). -/
def Dir.renameOp (d : Dir) (oldName newName : String) (dest : Node)
    (now : Time) : Except Errno (Dir × Node) :=
  match dest with
  | .dir da dch =>
      let target := mapGet d.children oldName
      .ok (⟨{ d.attr with mtime := now }, mapDelete d.children oldName⟩,
           Node.dir { da with mtime := now } (mapInsert dch newName target))
  | _ => .error .ENOENT

/-- Bit `fuse.SetattrMode` (bit 0 of `fuse.SetattrValid`). -/
def setattrMode : Nat := 1

/-- Bit `fuse.SetattrUid` (bit 1). -/
def setattrUid : Nat := 2

/-- Bit `fuse.SetattrGid` (bit 2). -/
def setattrGid : Nat := 4

/-- Bit `fuse.SetattrSize` (bit 3). -/
def setattrSize : Nat := 8

/-- Bit `fuse.SetattrAtime` (bit 4). -/
def setattrAtime : Nat := 16

/-- Bit `fuse.SetattrMtime` (bit 5). -/
def setattrMtime : Nat := 32

/-- Bit `fuse.SetattrHandle` (bit 6). -/
def setattrHandle : Nat := 64

/-- Bit `fuse.SetattrLockOwner` (bit 9). -/
def setattrLockOwner : Nat := 512

/-- Bit `fuse.SetattrFlags` (bit 31, the darwin-only flags field). -/
def setattrFlags : Nat := 2 ^ 31

/-- Bitwise complement within the 32-bit `fuse.SetattrValid` word:
Go's `^x` on a 32-bit constant. -/
def compl32 (x : Nat) : Nat := 2 ^ 32 - 1 - x

/-- The fields of a `fuse.SetattrRequest` that memfs reads: the `Valid`
bitmask and the `Mode`, `Size` and `Mtime` payloads. -/
structure SetattrRequest where
  valid : Nat
  mode : Nat
  size : Nat
  mtime : Time
  deriving DecidableEq, Repr

/-- Outcome of a setattr handler: a normal return, or the `log.Fatal`
call that terminates the whole process. -/
inductive SetattrResult (α : Type) where
  | ok (a : α)
  | fatal
  deriving DecidableEq, Repr

/-- Constant `handled` of `(*Dir).Setattr`: `SetattrMode | SetattrMtime`. -/
def dirHandled : Nat := setattrMode ||| setattrMtime

/-- Constant `ignored` of `(*Dir).Setattr`: `SetattrAtime | SetattrHandle`. -/
def dirIgnored : Nat := setattrAtime ||| setattrHandle

/-- Method `(*Dir).Setattr`: `log.Fatal` when `Valid` has a bit outside
`handled | ignored`; otherwise apply the mode and mtime fields whose
bits are set. -/
def Dir.setattrOp (d : Dir) (req : SetattrRequest) : SetattrResult Dir :=
  if req.valid &&& compl32 dirHandled &&& compl32 dirIgnored ≠ 0 then
    .fatal
  else
    let a1 := if req.valid &&& setattrMode ≠ 0 then
                { d.attr with mode := req.mode } else d.attr
    let a2 := if req.valid &&& setattrMtime ≠ 0 then
                { a1 with mtime := req.mtime } else a1
    .ok ⟨a2, d.children⟩

/-- Constant `handled` of `(*File).Setattr`:
`SetattrSize | SetattrMode | SetattrMtime`. -/
def fileHandled : Nat := setattrSize ||| setattrMode ||| setattrMtime

/-- Constant `ignored` of `(*File).Setattr`: `SetattrAtime | SetattrHandle
| SetattrUid | SetattrGid | SetattrFlags`. -/
def fileIgnored : Nat :=
  setattrAtime ||| setattrHandle ||| setattrUid ||| setattrGid ||| setattrFlags

/-- Method `(*File).Setattr`: `log.Fatal` on a `Valid` bit outside
`handled | ignored`; otherwise, when the size bit is set, compare
`delta := int(req.Size) - len(f.content)` and truncate (`delta < 0`) or
zero-pad (`delta > 0`) the buffer, then apply mode and mtime as for
directories. -/
def File.setattrOp (f : File) (req : SetattrRequest) : SetattrResult File :=
  if req.valid &&& compl32 fileHandled &&& compl32 fileIgnored ≠ 0 then
    .fatal
  else
    let delta : Int := (req.size : Int) - (f.content.length : Int)
    let c :=
      if req.valid &&& setattrSize ≠ 0 then
        if delta < 0 then
          f.content.take req.size
        else if 0 < delta then
          f.content ++ List.replicate (req.size - f.content.length) 0
        else
          f.content
      else
        f.content
    let a1 := if req.valid &&& setattrMode ≠ 0 then
                { f.attr with mode := req.mode } else f.attr
    let a2 := if req.valid &&& setattrMtime ≠ 0 then
                { a1 with mtime := req.mtime } else a1
    .ok ⟨a2, c⟩

/-- Method `(*File).Read`: the unchecked double slice
`f.content[req.Offset:][:req.Size]`.  `backing` is the stale backing
memory of the slice between its length and its capacity (so the
capacity is `f.content.length + backing.length`; it is an allocation
detail of the Go runtime the program never controls, and the nil buffer
of a fresh file has `backing = []`).  Per the Go spec,
`f.content[req.Offset:]` (whose elided high bound defaults to the
length) panics exactly when the offset exceeds the length, and the
second slice panics exactly when the size exceeds the remaining
capacity; otherwise the read returns `req.Size` bytes starting at
`req.Offset` of the backing array, exposing stale bytes past
end-of-content.  `none` is the slice-bounds panic, which faults the
serving process. -/
def File.readOp (f : File) (backing : List Nat) (offset size : Nat) :
    Option (List Nat) :=
  if offset ≤ f.content.length ∧
      offset + size ≤ f.content.length + backing.length then
    some (((f.content ++ backing).drop offset).take size)
  else
    none

/-- Method `(*File).Write`: pad with zeros up to the offset when it lies past
the end, remember any bytes that follow the written range, overwrite
with `append`, reattach the remembered tail, touch mtime, and report
`len(req.Data)` bytes written. -/
def File.writeOp (f : File) (offset : Nat) (data : List Nat) (now : Time) :
    File × Nat :=
  let contentLen := f.content.length
  let content1 :=
    if contentLen < offset then
      f.content ++ List.replicate (offset - contentLen) 0
    else
      f.content
  let contentLen1 := if contentLen < offset then offset else contentLen
  let afterPos := offset + data.length
  let after : Option (List Nat) :=
    if afterPos < contentLen1 then some (content1.drop afterPos) else none
  let newContent :=
    match after with
    | some tail => content1.take offset ++ data ++ tail
    | none => content1.take offset ++ data
  (⟨{ f.attr with mtime := now }, newContent⟩, data.length)

/-- A node-creating request: the three operations that call `newNode`
(`Mkdir`, `Create`, `Symlink`), carrying the data `newDir` / `newFile` /
`newSymlink` consume. -/
inductive CreateReq where
  | mkDirReq (mode : Nat)
  | mkFileReq (mode : Nat)
  | mkSymlinkReq (target : String)
  deriving DecidableEq, Repr

/-- The attrs stamped by a sequence of node creations, threading the
package-global `lastInode` counter exactly as the program does. -/
def runCreates (lastInode : Nat) (now : Time) : List CreateReq → List Attr
  | [] => []
  | r :: rs =>
      match r with
      | .mkDirReq m =>
          (newDir m now lastInode).1.attr ::
            runCreates (newDir m now lastInode).2 now rs
      | .mkFileReq m =>
          (newFile m now lastInode).1.attr ::
            runCreates (newFile m now lastInode).2 now rs
      | .mkSymlinkReq t =>
          (newSymlink t now lastInode).1.attr ::
            runCreates (newSymlink t now lastInode).2 now rs

/-! Concrete states used by the counterexamples and witnesses. -/

/-- A directory already holding an entry named `a` (a file with inode 5
and one content byte). -/
def dupDir : Dir :=
  ⟨⟨4, modeDir ||| 0o777, 0, 0⟩, [("a", Node.file ⟨5, 0o644, 0, 0⟩ [99])]⟩

/-- State `dupDir` after `Create("a")` at time 7 with counter 10: the entry
has been replaced by the fresh empty file with inode 11. -/
def dupDirAfterCreate : Dir :=
  ⟨⟨4, modeDir ||| 0o777, 0, 7⟩, [("a", Node.file ⟨11, 0o644, 7, 7⟩ [])]⟩

/-- An empty directory used as a hard-link target's parent. -/
def linkDir : Dir := ⟨⟨7, modeDir ||| 0o777, 0, 0⟩, []⟩

/-- A rename source directory holding one entry `x`. -/
def srcDir : Dir :=
  ⟨⟨12, modeDir ||| 0o777, 0, 0⟩, [("x", Node.file ⟨13, 0o644, 0, 0⟩ [1])]⟩

/-- An empty rename destination directory. -/
def dstDir : Dir := ⟨⟨14, modeDir ||| 0o777, 0, 0⟩, []⟩

/-- A directory holding a non-empty child directory `d`. -/
def parentDir : Dir :=
  ⟨⟨20, modeDir ||| 0o777, 0, 0⟩,
   [("d", Node.dir ⟨21, modeDir ||| 0o755, 0, 0⟩
           [("inner", Node.file ⟨22, 0o644, 0, 0⟩ [])])]⟩

/-- A concrete file, setattr request and result discharging the
preservation hypotheses of the C9 theorem: setting the mode leaves the
inode untouched. -/
def modeFileBefore : File := ⟨⟨5, 0o644, 0, 0⟩, []⟩

/-- The result of `File.setattrOp modeFileBefore modeOnlyReq`. -/
def modeFileAfter : File := ⟨⟨5, 0o600, 0, 0⟩, []⟩

/-- A setattr request carrying only the mode bit. -/
def modeOnlyReq : SetattrRequest := ⟨setattrMode, 0o600, 0, 0⟩

/-! Helper lemmas about the map embedding and the allocator. -/

theorem mapLookup_insert_self (m : List (String × Node)) (k : String)
    (v : Node) : mapLookup (mapInsert m k v) k = some v := by
  induction m with
  | nil => simp [mapInsert, mapLookup]
  | cons p rest ih =>
      obtain ⟨k2, w⟩ := p
      by_cases h : k2 = k <;> simp [mapInsert, mapLookup, h, ih]

theorem mapDelete_of_lookup_none (m : List (String × Node)) (k : String)
    (h : mapLookup m k = none) : mapDelete m k = m := by
  induction m with
  | nil => rfl
  | cons p rest ih =>
      obtain ⟨k2, w⟩ := p
      by_cases hk : k2 = k
      · simp [mapLookup, hk] at h
      · simp [mapLookup, hk] at h
        simp [mapDelete, hk, ih h]

theorem runCreates_map_inode (now : Time) (rs : List CreateReq) :
    ∀ s, (runCreates s now rs).map Attr.inode = List.range' (s + 1) rs.length := by
  induction rs with
  | nil => intro s; rfl
  | cons r rs ih =>
      intro s
      cases r <;>
        simp [runCreates, newDir, newFile, newSymlink, newNode, ih,
          List.range'_succ]

/-! Claim theorems. -/

/-- C1: the claim says `read(offset, size)` is total, returning
`InvalidRange` when the offset exceeds the buffer length and a truncated
read when `offset + size` does, never faulting the process.  The source's
`(*File).Read` instead performs the unchecked double slice
`f.content[req.Offset:][:req.Size]`: whenever the offset exceeds the
buffer length — as in `read(1, 0)` on a fresh empty file — the first
slice panics, for every capacity the backing array may have.  And a
read past end-of-content, `read(0, 3)` of a 2-byte buffer, never yields
the claimed truncated read: the second slice panics when the capacity
equals the length (`backing = []`), and when the capacity admits it
(`backing = [7]`) it returns a stale byte past end-of-content.  An
in-range read returns the requested bytes. -/
theorem read_unchecked_slice_faults :
    (∀ backing : List Nat,
       File.readOp ⟨⟨3, 0o644, 0, 0⟩, []⟩ backing 1 0 = none) ∧
    File.readOp ⟨⟨3, 0o644, 0, 0⟩, [104, 105]⟩ [] 0 3 = none ∧
    File.readOp ⟨⟨3, 0o644, 0, 0⟩, [104, 105]⟩ [7] 0 3 =
      some [104, 105, 7] ∧
    File.readOp ⟨⟨3, 0o644, 0, 0⟩, [104, 105]⟩ [7] 0 3 ≠
      some [104, 105] ∧
    File.readOp ⟨⟨3, 0o644, 0, 0⟩, [104, 105]⟩ [] 0 2 = some [104, 105] := by
  refine ⟨?_, rfl, rfl, by decide, rfl⟩
  intro backing
  rw [File.readOp, if_neg]
  simp

/-- C2: the claim says a setattr request with a field outside the
recognized set yields the recoverable `UnsupportedAttribute` error and
never terminates the process.  Both setattr handlers instead call
`log.Fatal` on such a request: a `Valid` mask of `SetattrUid` on a
directory, or of `SetattrLockOwner` on a file, terminates the whole
process (`SetattrResult.fatal`). -/
theorem setattr_unrecognized_fatal :
    Dir.setattrOp ⟨⟨1, modeDir ||| 0o777, 0, 0⟩, []⟩
        ⟨setattrUid, 0, 0, 0⟩ = .fatal ∧
    File.setattrOp ⟨⟨2, 0o644, 0, 0⟩, []⟩
        ⟨setattrLockOwner, 0, 0, 0⟩ = .fatal := by
  refine ⟨rfl, rfl⟩

/-- C4: the claim says `link` with a Directory or Symlink target fails
with `InvalidTarget` and leaves the entry set unchanged.  The source's
`(*Dir).Link` instead silently no-ops on a non-`*File` target: it
returns the old node with a nil error (never `EINVAL`), leaving the
directory unchanged but reporting success. -/
theorem link_nonfile_silent_noop :
    Dir.linkOp linkDir "n" (Node.dir ⟨8, modeDir ||| 0o755, 0, 0⟩ []) 9 =
      .ok (linkDir, Node.dir ⟨8, modeDir ||| 0o755, 0, 0⟩ []) ∧
    Dir.linkOp linkDir "n"
        (Node.symlink ⟨9, modeSymlink ||| 0o444, 0, 0⟩ "t") 9 =
      .ok (linkDir, Node.symlink ⟨9, modeSymlink ||| 0o444, 0, 0⟩ "t") ∧
    Dir.linkOp linkDir "n"
        (Node.symlink ⟨9, modeSymlink ||| 0o444, 0, 0⟩ "t") 9 ≠
      .error Errno.EINVAL := by
  refine ⟨rfl, rfl, ?_⟩
  intro h
  rw [show Dir.linkOp linkDir "n"
        (Node.symlink ⟨9, modeSymlink ||| 0o444, 0, 0⟩ "t") 9 =
      .ok (linkDir, Node.symlink ⟨9, modeSymlink ||| 0o444, 0, 0⟩ "t")
    from rfl] at h
  exact Except.noConfusion h

/-- C3 counterexample: on `dupDir`, whose name `a` is already taken by
the file with inode 5, `Create("a")` does not fail `EEXIST`: it returns
success and replaces the entry with the fresh empty file carrying
inode 11, so the directory's entry set changes.  (`Mkdir` does perform
the duplicate check; `(*Dir).Create` has none.) -/
theorem create_duplicate_overwrites_cex :
    Dir.createOp dupDir "a" 0o644 7 10 =
      .ok (dupDirAfterCreate, ⟨⟨11, 0o644, 7, 7⟩, []⟩, 11) ∧
    Dir.createOp dupDir "a" 0o644 7 10 ≠ .error Errno.EEXIST ∧
    Node.inodeOf (mapGet dupDirAfterCreate.children "a") ≠
      Node.inodeOf (mapGet dupDir.children "a") := by
  refine ⟨rfl, ?_, by decide⟩
  intro h
  rw [show Dir.createOp dupDir "a" 0o644 7 10 =
      .ok (dupDirAfterCreate, ⟨⟨11, 0o644, 7, 7⟩, []⟩, 11) from rfl] at h
  exact Except.noConfusion h

/-- C3 amended: `Mkdir` on an occupied name fails `EEXIST` without
producing any new state, but `Create` performs no duplicate check: it
always succeeds, inserting a fresh empty file under the name and
thereby replacing any existing entry. -/
theorem mkdir_rejects_duplicate_create_does_not (d : Dir) (name : String)
    (mode : Nat) (now : Time) (ctr : Nat)
    (h : (mapLookup d.children name).isSome) :
    Dir.mkdirOp d name mode now ctr = .error Errno.EEXIST ∧
    Dir.createOp d name mode now ctr =
      .ok (⟨{ d.attr with mtime := now },
            mapInsert d.children name
              (Node.file ⟨ctr + 1, mode, now, now⟩ [])⟩,
           ⟨⟨ctr + 1, mode, now, now⟩, []⟩, ctr + 1) := by
  refine ⟨?_, rfl⟩
  simp [Dir.mkdirOp, h]

/-- Witness for the amended C3 at the concrete directory `dupDir`. -/
theorem mkdir_rejects_duplicate_witness :
    Dir.mkdirOp dupDir "a" 0o755 7 10 = .error Errno.EEXIST :=
  (mkdir_rejects_duplicate_create_does_not dupDir "a" 0o755 7 10 rfl).1

/-- C5 counterexample: renaming the absent name `missing` out of
`srcDir` into `dstDir` does not fail `ENOENT`: `(*Dir).Rename` checks
only that the destination is a directory, so it returns success, leaves
the source's entries as they were (touching its mtime), and stores the
nil node it read for the absent key under the new name `b` in the
destination. -/
theorem rename_missing_name_cex :
    Dir.renameOp srcDir "missing" "b" dstDir.toNode 9 =
      .ok (⟨⟨12, modeDir ||| 0o777, 0, 9⟩,
            [("x", Node.file ⟨13, 0o644, 0, 0⟩ [1])]⟩,
           Node.dir ⟨14, modeDir ||| 0o777, 0, 9⟩ [("b", Node.nilNode)]) ∧
    Dir.renameOp srcDir "missing" "b" dstDir.toNode 9 ≠
      .error Errno.ENOENT := by
  refine ⟨rfl, ?_⟩
  intro h
  rw [show Dir.renameOp srcDir "missing" "b" dstDir.toNode 9 =
      .ok (⟨⟨12, modeDir ||| 0o777, 0, 9⟩,
            [("x", Node.file ⟨13, 0o644, 0, 0⟩ [1])]⟩,
           Node.dir ⟨14, modeDir ||| 0o777, 0, 9⟩ [("b", Node.nilNode)])
    from rfl] at h
  exact Except.noConfusion h

/-- C5 amended: when the name has no entry in the source directory and
the destination is a directory, `Rename` succeeds rather than failing
`NotFound`: the source keeps exactly its entries (only its mtime is
touched) and the destination gains an entry under the new name that
references the nil node. -/
theorem rename_missing_name_inserts_nil (d dd : Dir)
    (oldName newName : String) (now : Time)
    (h : mapLookup d.children oldName = none) :
    Dir.renameOp d oldName newName dd.toNode now =
      .ok (⟨{ d.attr with mtime := now }, d.children⟩,
           Node.dir { dd.attr with mtime := now }
             (mapInsert dd.children newName Node.nilNode)) := by
  simp [Dir.renameOp, Dir.toNode, mapGet, h, mapDelete_of_lookup_none _ _ h]

/-- Witness for the amended C5 at the concrete directories `srcDir` and
`dstDir`. -/
theorem rename_missing_name_inserts_nil_witness :
    Dir.renameOp srcDir "gone" "b" dstDir.toNode 9 =
      .ok (⟨{ srcDir.attr with mtime := 9 }, srcDir.children⟩,
           Node.dir { dstDir.attr with mtime := 9 }
             (mapInsert dstDir.children "b" Node.nilNode)) :=
  rename_missing_name_inserts_nil srcDir dstDir "gone" "b" 9 rfl

/-- C6 counterexample: removing the non-empty child directory `d` of
`parentDir` fails, but with `fuse.EEXIST` — the very errno `Mkdir` uses
for `AlreadyExists` — not with a distinct NotEmpty error
(`ENOTEMPTY`): the source never produces `ENOTEMPTY`, so the NotEmpty
kind is not distinguishable from AlreadyExists in its replies. -/
theorem remove_nonempty_eexist_cex :
    Dir.removeOp parentDir "d" 9 = .error Errno.EEXIST ∧
    Dir.removeOp parentDir "d" 9 ≠ .error Errno.ENOTEMPTY ∧
    Errno.EEXIST ≠ Errno.ENOTEMPTY := by
  refine ⟨rfl, ?_, by decide⟩
  intro h
  rw [show Dir.removeOp parentDir "d" 9 = .error Errno.EEXIST from rfl] at h
  injection h with h2
  exact Errno.noConfusion h2

/-- C6 amended: `Remove` of an entry referencing a directory that still
has at least one entry fails — returning `fuse.EEXIST`, the same errno
as the AlreadyExists rejection, there being no distinct NotEmpty
error in the code — and produces no new state, so the parent, the
child directory and its contents are unchanged. -/
theorem remove_nonempty_fails_eexist (d : Dir) (name : String) (a : Attr)
    (ch : List (String × Node)) (now : Time)
    (h : mapLookup d.children name = some (Node.dir a ch)) (hne : ch ≠ []) :
    Dir.removeOp d name now = .error Errno.EEXIST := by
  unfold Dir.removeOp mapGet
  rw [h]
  simp [List.length_pos.mpr hne]

/-- Witness for the amended C6 at the concrete directory `parentDir`. -/
theorem remove_nonempty_fails_eexist_witness :
    Dir.removeOp parentDir "d" 9 = .error Errno.EEXIST :=
  remove_nonempty_fails_eexist parentDir "d" ⟨21, modeDir ||| 0o755, 0, 0⟩
    [("inner", Node.file ⟨22, 0o644, 0, 0⟩ [])] 9 rfl (by simp)

/-- C7: `(*File).Write` in closed form: the first `offset` existing
bytes are kept, a zero gap covers `[len, offset)` when the offset lies
past the end, the written range `[offset, offset + len(data))` holds
exactly `data`, every existing byte at or past `offset + len(data)` is
preserved, and the reported count is `len(data)`.  Hence the buffer
never shrinks, and on an empty file `write(5, "hi")` then `read(0, 7)`
yields five zero bytes followed by `"hi"`. -/
theorem write_sparse_pad_overwrite_preserve :
    (∀ (f : File) (offset : Nat) (data : List Nat) (now : Time),
       File.writeOp f offset data now =
         (⟨{ f.attr with mtime := now },
           f.content.take offset ++
             (List.replicate (offset - f.content.length) 0 ++
               (data ++ f.content.drop (offset + data.length)))⟩,
          data.length)) ∧
    (∀ (f : File) (offset : Nat) (data : List Nat) (now : Time),
       f.content.length ≤
         ((File.writeOp f offset data now).1).content.length) ∧
    File.writeOp ⟨⟨30, 0o644, 0, 0⟩, []⟩ 5 [104, 105] 9 =
      (⟨⟨30, 0o644, 0, 9⟩, [0, 0, 0, 0, 0, 104, 105]⟩, 2) ∧
    (∀ backing : List Nat,
       File.readOp ⟨⟨30, 0o644, 0, 9⟩, [0, 0, 0, 0, 0, 104, 105]⟩
           backing 0 7 =
         some [0, 0, 0, 0, 0, 104, 105]) := by
  have main : ∀ (f : File) (offset : Nat) (data : List Nat) (now : Time),
      File.writeOp f offset data now =
        (⟨{ f.attr with mtime := now },
          f.content.take offset ++
            (List.replicate (offset - f.content.length) 0 ++
              (data ++ f.content.drop (offset + data.length)))⟩,
         data.length) := by
    intro f offset data now
    simp only [File.writeOp]
    by_cases hpad : f.content.length < offset
    · have h1 : (f.content ++
          List.replicate (offset - f.content.length) (0 : Nat)).length ≤
          offset := by
        simp
        omega
      have h2 : f.content.length ≤ offset := Nat.le_of_lt hpad
      have h3 : f.content.length ≤ offset + data.length := by omega
      rw [if_pos hpad, if_pos hpad,
        if_neg (by omega : ¬ offset + data.length < offset)]
      rw [List.take_of_length_le h1, List.take_of_length_le h2,
        List.drop_eq_nil_of_le h3]
      simp
    · have hrep : offset - f.content.length = 0 := by omega
      rw [if_neg hpad, if_neg hpad, hrep]
      by_cases htail : offset + data.length < f.content.length
      · rw [if_pos htail]
        simp
      · have h4 : f.content.length ≤ offset + data.length := by omega
        rw [if_neg htail, List.drop_eq_nil_of_le h4]
        simp
  refine ⟨main, ?_, by decide, ?_⟩
  · intro f offset data now
    rw [main f offset data now]
    simp only [List.length_append, List.length_take, List.length_replicate,
      List.length_drop]
    omega
  · intro backing
    rw [File.readOp, if_pos ⟨by simp, by simp⟩]
    dsimp only
    rw [List.drop_zero]
    show some (List.take ([0, 0, 0, 0, 0, 104, 105] : List Nat).length
        ([0, 0, 0, 0, 0, 104, 105] ++ backing)) =
      some [0, 0, 0, 0, 0, 104, 105]
    rw [List.take_left]

theorem truncOrPad_eq (c : List Nat) (size : Nat) :
    (if ((size : Int) - (c.length : Int)) < 0 then c.take size
     else if 0 < ((size : Int) - (c.length : Int)) then
       c ++ List.replicate (size - c.length) 0
     else c) =
    c.take size ++ List.replicate (size - c.length) 0 := by
  split_ifs with h1 h2
  · have hs : size < c.length := by omega
    rw [Nat.sub_eq_zero_of_le (Nat.le_of_lt hs)]
    simp
  · have hs : c.length ≤ size := by omega
    rw [List.take_of_length_le hs]
  · have hs : size = c.length := by omega
    subst hs
    simp

/-- C8: a file setattr whose `Valid` mask passes the fatal check and has
the size bit set rewrites the buffer to exactly `req.size` bytes: its
first `min req.size len` bytes are kept (truncation when the requested
size is smaller) and a zero pad fills the rest (extension when larger).
Concretely, `setattr(size=3)` on `"hello"` leaves `"hel"` and
`setattr(size=5)` on `"ab"` leaves `"ab"` followed by three zero
bytes. -/
theorem setattr_size_sets_exact_length :
    (∀ (f : File) (req : SetattrRequest),
       req.valid &&& compl32 fileHandled &&& compl32 fileIgnored = 0 →
       req.valid &&& setattrSize ≠ 0 →
       ∃ a2, File.setattrOp f req =
           .ok ⟨a2, f.content.take req.size ++
                    List.replicate (req.size - f.content.length) 0⟩ ∧
         (f.content.take req.size ++
           List.replicate (req.size - f.content.length) (0 : Nat)).length =
           req.size) ∧
    File.setattrOp ⟨⟨31, 0o644, 0, 0⟩, [104, 101, 108, 108, 111]⟩
        ⟨setattrSize, 0, 3, 0⟩ =
      .ok ⟨⟨31, 0o644, 0, 0⟩, [104, 101, 108]⟩ ∧
    File.setattrOp ⟨⟨32, 0o644, 0, 0⟩, [97, 98]⟩ ⟨setattrSize, 0, 5, 0⟩ =
      .ok ⟨⟨32, 0o644, 0, 0⟩, [97, 98, 0, 0, 0]⟩ := by
  refine ⟨?_, rfl, rfl⟩
  intro f req hok hsize
  refine ⟨(if req.valid &&& setattrMtime ≠ 0 then
      { (if req.valid &&& setattrMode ≠ 0 then
          { f.attr with mode := req.mode } else f.attr) with
        mtime := req.mtime }
    else
      (if req.valid &&& setattrMode ≠ 0 then
          { f.attr with mode := req.mode } else f.attr)), ?_, ?_⟩
  · simp only [File.setattrOp]
    rw [if_neg (not_not_intro hok), if_pos hsize, truncOrPad_eq]
  · simp only [List.length_append, List.length_take, List.length_replicate]
    omega

/-- Witness for C8: `setattr(size=2)` on the 3-byte file `[1, 2, 3]`
truncates to its first two bytes. -/
theorem setattr_size_sets_exact_length_witness :
    ∃ a2, File.setattrOp ⟨⟨33, 0o644, 0, 0⟩, [1, 2, 3]⟩
        ⟨setattrSize, 0, 2, 0⟩ =
        .ok ⟨a2, [1, 2, 3].take 2 ++ List.replicate (2 - [1, 2, 3].length) 0⟩ ∧
      (([1, 2, 3].take 2 ++
        List.replicate (2 - [1, 2, 3].length) (0 : Nat)).length) = 2 :=
  setattr_size_sets_exact_length.1 ⟨⟨33, 0o644, 0, 0⟩, [1, 2, 3]⟩
    ⟨setattrSize, 0, 2, 0⟩ rfl (by decide)

/-- C9: every node-creating operation stamps its attr through `newNode`,
which increments the single `lastInode` counter and never reuses a
value: over any sequence of creations the assigned inodes are strictly
increasing in creation order (hence pairwise distinct) and all exceed
the starting counter value; the root, created at startup from counter 0,
has inode 1; and no mutating operation (`Setattr` on either node kind,
`Write`) ever changes a node's inode. -/
theorem inode_allocation_unique_monotone :
    (∀ (s : Nat) (now : Time) (rs : List CreateReq),
       ((runCreates s now rs).map Attr.inode).Pairwise (· < ·) ∧
       ((runCreates s now rs).map Attr.inode).Nodup ∧
       ∀ i ∈ (runCreates s now rs).map Attr.inode, s < i) ∧
    root.attr.inode = 1 ∧
    (∀ (d : Dir) (req : SetattrRequest) (d2 : Dir),
       Dir.setattrOp d req = .ok d2 → d2.attr.inode = d.attr.inode) ∧
    (∀ (f : File) (req : SetattrRequest) (f2 : File),
       File.setattrOp f req = .ok f2 → f2.attr.inode = f.attr.inode) ∧
    (∀ (f : File) (offset : Nat) (data : List Nat) (now : Time),
       ((File.writeOp f offset data now).1).attr.inode = f.attr.inode) := by
  refine ⟨?_, rfl, ?_, ?_, fun f offset data now => rfl⟩
  · intro s now rs
    refine ⟨?_, ?_, ?_⟩
    · rw [runCreates_map_inode]
      exact List.pairwise_lt_range' _ _
    · rw [runCreates_map_inode]
      exact List.nodup_range' _ _
    · intro i hi
      rw [runCreates_map_inode] at hi
      rcases List.mem_range'.1 hi with ⟨j, hj, rfl⟩
      omega
  · intro d req d2 h
    simp only [Dir.setattrOp] at h
    split at h
    · exact SetattrResult.noConfusion h
    · injection h with h2
      rw [← h2]
      dsimp only
      split <;> split <;> rfl
  · intro f req f2 h
    simp only [File.setattrOp] at h
    split at h
    · exact SetattrResult.noConfusion h
    · injection h with h2
      rw [← h2]
      dsimp only
      split <;> split <;> rfl

/-- Witness for C9 at concrete inputs: a two-creation run from the
startup counter yields strictly increasing inodes, and a concrete
mode-only setattr preserves the inode. -/
theorem inode_allocation_unique_monotone_witness :
    ((runCreates 0 0 [CreateReq.mkDirReq 511,
        CreateReq.mkFileReq 420]).map Attr.inode).Pairwise (· < ·) ∧
    modeFileAfter.attr.inode = modeFileBefore.attr.inode :=
  ⟨(inode_allocation_unique_monotone.1 0 0
      [CreateReq.mkDirReq 511, CreateReq.mkFileReq 420]).1,
   inode_allocation_unique_monotone.2.2.2.1 modeFileBefore modeOnlyReq
     modeFileAfter rfl⟩

/-- C10: `(*Dir).Symlink` never fails and performs no duplicate check:
for every directory state it returns success, storing under the name —
and thereby replacing any existing entry, as the concrete overwrite of
`dupDir`'s entry `a` shows — a fresh symlink whose mode is the
hard-coded `os.ModeSymlink | 0444` (no mode from the request is
consulted: `newSymlink` takes only the target). -/
theorem symlink_unconditional_replace_mode_0444 :
    (∀ (d : Dir) (newName target : String) (now : Time) (ctr : Nat),
       Dir.symlinkOp d newName target now ctr =
         .ok (⟨{ d.attr with mtime := now },
               mapInsert d.children newName
                 (Node.symlink ⟨ctr + 1, modeSymlink ||| 0o444, now, now⟩
                   target)⟩,
              ⟨⟨ctr + 1, modeSymlink ||| 0o444, now, now⟩, target⟩,
              ctr + 1)) ∧
    (∀ (m : List (String × Node)) (k : String) (v : Node),
       mapLookup (mapInsert m k v) k = some v) ∧
    Dir.symlinkOp dupDir "a" "t" 9 30 =
      .ok (⟨⟨4, modeDir ||| 0o777, 0, 9⟩,
            [("a", Node.symlink ⟨31, modeSymlink ||| 0o444, 9, 9⟩ "t")]⟩,
           ⟨⟨31, modeSymlink ||| 0o444, 9, 9⟩, "t"⟩, 31) :=
  ⟨fun _ _ _ _ _ => rfl, mapLookup_insert_self, rfl⟩

end Memfs
